import Mathlib

/-!
Verification of the real-time message-synchronization core of a two-party
chat application (React client `ChatContext.jsx` plus the Express/Mongoose
message controller).  The client keeps four pieces of state: the active
visible message sequence (`messages`), a per-peer conversation cache
(`userMessagesMap`), a per-peer unseen counter table (`unseenMessages`)
and the currently selected peer (`selectedUser`).  Every definition below
is a direct shallow embedding of the corresponding JavaScript function;
string identifiers model Mongo/user ids, a JavaScript truthiness test on
an id field is modelled as inequality with the empty string, and the
`isTemp` flag marks optimistic client placeholders exactly as in the
source.
-/

namespace Chattrix

/-- A chat message as it appears in the client state and over the wire.
JavaScript objects that lack `image` are modelled with `none`; server
messages carry no `isTemp` field, i.e. `isTemp = false`. -/
structure Message where
  mid : String
  senderId : String
  receiverId : String
  text : String
  image : Option String
  seen : Bool
  isTemp : Bool
  createdAt : Nat
deriving DecidableEq, Repr

/-- Lookup in a JavaScript-object-like association map (first match). -/
def mGet? {α : Type} : List (String × α) → String → Option α
  | [], _ => none
  | (k, v) :: rest, key => if k = key then some v else mGet? rest key

/-- Lookup with a default, modelling `obj[key] || dflt`. -/
def mGetD {α : Type} (m : List (String × α)) (key : String) (dflt : α) : α :=
  (mGet? m key).getD dflt

/-- Functional update, modelling the object spread `{ ...prev, [key]: v }`:
replaces the binding if the key is present, otherwise appends it. -/
def mSet {α : Type} : List (String × α) → String → α → List (String × α)
  | [], key, v => [(key, v)]
  | (k, w) :: rest, key, v =>
      if k = key then (k, v) :: rest else (k, w) :: mSet rest key v

/-- The spread merge `{ ...prev, ...server }`: every binding of `server`
overrides the binding of `prev` with the same key. -/
def spreadMerge {α : Type} (prev server : List (String × α)) : List (String × α) :=
  server.foldl (fun acc kv => mSet acc kv.1 kv.2) prev

/-- The client state held by `ChatProvider`: active visible sequence,
per-peer conversation cache, per-peer unseen counters, selected peer. -/
structure ClientState where
  messages : List Message
  userMessagesMap : List (String × List Message)
  unseenMessages : List (String × Nat)
  selectedUser : Option String
deriving DecidableEq, Repr

/-- The validity test `msg && typeof msg === 'object' && msg.senderId &&
msg.receiverId` used both on socket events and on fetched/stored lists:
truthiness of the two id strings. -/
def validMsg (m : Message) : Bool :=
  m.senderId ≠ "" && m.receiverId ≠ ""

/-- Number of entries of a message list carrying a given identifier. -/
def countById (l : List Message) (i : String) : Nat :=
  l.countP (fun m => m.mid = i)

/-- The socket `newMessage` handler `handleNewMessage` of
`ChatContext.jsx` (lines 239-296), run for local user `authUser`.
Returns the new state together with the list of `markAsRead` events
`(messageId, userId)` emitted to the socket. -/
def handleNewMessage (authUser : String) (nm : Message) (s : ClientState) :
    ClientState × List (String × String) :=
  if ¬ validMsg nm then (s, [])
  else
    let otherUserId := if nm.senderId = authUser then nm.receiverId else nm.senderId
    let appended := mGetD s.userMessagesMap otherUserId [] ++ [nm]
    let s1 := { s with userMessagesMap := mSet s.userMessagesMap otherUserId appended }
    if s1.selectedUser = some otherUserId then
      let s2 := { s1 with messages := s1.messages ++ [nm] }
      if nm.senderId ≠ authUser then
        let updated := { nm with seen := true }
        let replaced := (mGetD s2.userMessagesMap otherUserId []).map
          (fun msg => if msg.mid = nm.mid then updated else msg)
        let s3 := { s2 with userMessagesMap := mSet s2.userMessagesMap otherUserId replaced }
        let msgs4 := s3.messages.map (fun msg => if msg.mid = nm.mid then updated else msg)
        let s4 := { s3 with messages := msgs4 }
        (s4, [(nm.mid, otherUserId)])
      else (s2, [])
    else
      if nm.senderId ≠ authUser then
        let bumped := mSet s1.unseenMessages nm.senderId
          (mGetD s1.unseenMessages nm.senderId 0 + 1)
        ({ s1 with unseenMessages := bumped }, [])
      else (s1, [])

/-- The peer a delivered message is filed under: whichever of
sender/receiver is not the local user. -/
def otherParty (authUser : String) (nm : Message) : String :=
  if nm.senderId = authUser then nm.receiverId else nm.senderId

/-- The success continuation of `getMessages` (`ChatContext.jsx` lines
94-130).  `captured` is the value of `selectedUser` held by the closure of
the `useCallback` that issued the request: the callback lists
`selectedUser` among its dependencies, so an in-flight request keeps the
value from the render at which it was issued even if the user re-selects
meanwhile.  Returns the new state and the `markAsRead` events
`(messageId, userId)` emitted one per unseen fetched message. -/
def getMessagesSuccess (captured : Option String) (userId : String)
    (fetched : List Message) (s : ClientState) :
    ClientState × List (String × String) :=
  let updatedMessages := fetched.filter validMsg
  let s1 := { s with userMessagesMap := mSet s.userMessagesMap userId updatedMessages }
  let s2 := if captured = some userId then { s1 with messages := updatedMessages } else s1
  let s3 := { s2 with unseenMessages := mSet s2.unseenMessages userId 0 }
  let unseenToMark := updatedMessages.filter (fun m => m.senderId = userId && !m.seen)
  (s3, unseenToMark.map (fun m => (m.mid, userId)))

/-- Outcome of the asynchronous history fetch issued by `getMessages`:
either the response arrives with `success` and a message list, or the
request fails (network error or non-success response), in which case the
handler only shows a throttled toast. -/
inductive FetchOutcome where
  | success (msgs : List Message)
  | failure
deriving DecidableEq, Repr

/-- The synchronous part of selecting a peer: the `selectedUser` effect of
`ChatContext.jsx` (lines 143-158).  Sets the selected peer; if the
conversation cache already has an entry for the peer (a present key, even
with an empty array, is truthy) it becomes the active sequence and the
unseen counter is reset, with no fetch; otherwise a fetch is issued, and
the second component records it as `some (captured, userId)` where
`captured` is the selected peer captured by the issuing closure. -/
def selectEffect (u : String) (s : ClientState) :
    ClientState × Option (Option String × String) :=
  let s0 := { s with selectedUser := some u }
  match mGet? s0.userMessagesMap u with
  | some cached =>
      ({ s0 with messages := cached,
                 unseenMessages := mSet s0.unseenMessages u 0 }, none)
  | none => (s0, some (some u, u))

/-- Selecting a peer together with the resolution of the history fetch it
may issue: runs `selectEffect` and, when a fetch was issued, applies the
given outcome (the catch branch of `getMessages` leaves all four state
components untouched).  Returns the state and the emitted `markAsRead`
events. -/
def selectPeer (u : String) (outcome : FetchOutcome) (s : ClientState) :
    ClientState × List (String × String) :=
  match selectEffect u s with
  | (s1, none) => (s1, [])
  | (s1, some (captured, userId)) =>
      match outcome with
      | .success msgs => getMessagesSuccess captured userId msgs s1
      | .failure => (s1, [])

/-- Outcome of the `axios.post` in the client `sendMessage`: a success
response carrying the canonical message, a non-success response (the
`else` branch), or a thrown error (the `catch` branch). -/
inductive SendOutcome where
  | success (m : Message)
  | failureResp
  | exception
deriving DecidableEq, Repr

/-- Builds the optimistic placeholder of `sendMessage` (`ChatContext.jsx`
lines 168-177): `tempId` models the fresh `temp-...` identifier and `now`
the wall-clock timestamp. -/
def mkTempMessage (authUser peer : String) (text image : Option String)
    (tempId : String) (now : Nat) : Message :=
  { mid := tempId, senderId := authUser, receiverId := peer,
    text := text.getD "", image := image, seen := false, isTemp := true,
    createdAt := now }

/-- The synchronous prefix of the client `sendMessage` (`ChatContext.jsx`
lines 160-188): with no selected peer it only shows a toast and returns;
otherwise it appends the placeholder to the active sequence and to the
selected peer's cache entry and issues the request.  The second component
is `some (peer, placeholder)` exactly when the request is issued. -/
def sendMessageStart (authUser : String) (text image : Option String)
    (tempId : String) (now : Nat) (s : ClientState) :
    ClientState × Option (String × Message) :=
  match s.selectedUser with
  | none => (s, none)
  | some peer =>
      let temp := mkTempMessage authUser peer text image tempId now
      let entry := mGetD s.userMessagesMap peer [] ++ [temp]
      let s1 := { s with messages := s.messages ++ [temp],
                         userMessagesMap := mSet s.userMessagesMap peer entry }
      (s1, some (peer, temp))

/-- The continuation of the client `sendMessage` after the response
(`ChatContext.jsx` lines 190-230), for the request issued towards `peer`
with placeholder id `tempId`.  A success response whose message lacks a
sender or receiver id throws inside the `try`, landing in the same
`catch` as a network error, which strips every `isTemp` entry; a
non-success response removes exactly the entries with the placeholder
id. -/
def sendMessageFinish (peer tempId : String) (o : SendOutcome)
    (s : ClientState) : ClientState :=
  match o with
  | .success m =>
      if validMsg m then
        let repl := fun msg => if msg.isTemp && msg.mid = tempId then m else msg
        let entry := (mGetD s.userMessagesMap peer []).map repl
        { s with messages := s.messages.map repl,
                 userMessagesMap := mSet s.userMessagesMap peer entry }
      else
        let entry := (mGetD s.userMessagesMap peer []).filter (fun msg => !msg.isTemp)
        { s with messages := s.messages.filter (fun msg => !msg.isTemp),
                 userMessagesMap := mSet s.userMessagesMap peer entry }
  | .failureResp =>
      let entry := (mGetD s.userMessagesMap peer []).filter (fun msg => msg.mid ≠ tempId)
      { s with messages := s.messages.filter (fun msg => msg.mid ≠ tempId),
               userMessagesMap := mSet s.userMessagesMap peer entry }
  | .exception =>
      let entry := (mGetD s.userMessagesMap peer []).filter (fun msg => !msg.isTemp)
      { s with messages := s.messages.filter (fun msg => !msg.isTemp),
               userMessagesMap := mSet s.userMessagesMap peer entry }

/-- The whole client `sendMessage` call with the given request outcome:
the optimistic prefix followed, when the request was issued, by the
response continuation. -/
def sendMessage (authUser : String) (text image : Option String)
    (tempId : String) (now : Nat) (o : SendOutcome) (s : ClientState) :
    ClientState :=
  match sendMessageStart authUser text image tempId now s with
  | (s1, none) => s1
  | (s1, some (peer, temp)) => sendMessageFinish peer temp.mid o s1

/-- The server `getUsersForSidebar` unseen-count snapshot (message
controller lines 31-43): `count u` is the number of stored messages from
`u` to the local user with `seen = false`; a peer appears in the snapshot
only when its count is positive. -/
def serverUnseenSnapshot (peers : List String) (count : String → Nat) :
    List (String × Nat) :=
  peers.filterMap (fun u => if count u > 0 then some (u, count u) else none)

/-- The client `getUsers` success continuation (`ChatContext.jsx` line
80): merges the server snapshot over the local unseen counters with an
object spread. -/
def getUsersMerge (localCounts serverCounts : List (String × Nat)) :
    List (String × Nat) :=
  spreadMerge localCounts serverCounts

/-- The localStorage save effect (`ChatContext.jsx` lines 54-61):
serializes the whole conversation cache as JSON.  All `Message` fields
are plain data, so the JSON round trip is the identity on the map. -/
def savedUserMessagesMap (s : ClientState) : List (String × List Message) :=
  s.userMessagesMap

/-- The localStorage hydration effect (`ChatContext.jsx` lines 26-43):
keeps, per peer, exactly the stored entries that pass `validMsg`
(an object with truthy `senderId` and `receiverId`). -/
def hydrateUserMessagesMap (stored : List (String × List Message)) :
    List (String × List Message) :=
  stored.map (fun kv => (kv.1, kv.2.filter validMsg))

/-- The server `sendMessage` controller (message controller lines
93-136): rejects only a missing receiver; otherwise stores the message
with `text` defaulted to the empty string and the uploaded image URL (or
null), performing no emptiness validation. -/
def serverSendMessage (receiverExists : Bool) (senderId receiverId : String)
    (text image : Option String) (newId : String) (now : Nat) :
    Option Message :=
  if ¬ receiverExists then none
  else some { mid := newId, senderId := senderId, receiverId := receiverId,
              text := text.getD "", image := image, seen := false,
              isTemp := false, createdAt := now }

/-- The single bulk `Message.updateMany` of the server `getMessages`
controller (lines 70-73): one pass over the store marking every message
from the selected peer to the local user with `seen = false` as seen. -/
def serverMarkSeenBulk (db : List Message) (myId peerId : String) :
    List Message :=
  db.map (fun m =>
    if m.senderId = peerId && m.receiverId = myId && !m.seen
    then { m with seen := true } else m)

/-- The socket `markAsReadResult` handler `handleMarkAsRead`
(`ChatContext.jsx` lines 337-339): sets the unseen counter of `userId`
to `count || 0`, with no check against the selected peer. -/
def handleMarkAsRead (userId : String) (count : Option Nat)
    (s : ClientState) : ClientState :=
  { s with unseenMessages := mSet s.unseenMessages userId (count.getD 0) }

/-! ### Concrete scenario constants -/

/-- A peer-originated inbound message used in concrete scenarios. -/
def inboundHey : Message :=
  { mid := "m1", senderId := "p1", receiverId := "me", text := "hey",
    image := none, seen := false, isTemp := false, createdAt := 5 }

/-- The empty client state (fresh session, nothing selected). -/
def emptyState : ClientState :=
  { messages := [], userMessagesMap := [], unseenMessages := [], selectedUser := none }

/-- A's history as returned by the delayed fetch in the C2 scenario. -/
def fetchedFromA : Message :=
  { mid := "a1", senderId := "userA", receiverId := "me", text := "hi",
    image := none, seen := false, isTemp := false, createdAt := 1 }

/-- State after selecting peer `userA` on a fresh session: no cache entry
exists, so a history fetch for `userA` is issued whose closure captured
`selectedUser = userA`. -/
def c2afterSelectA : ClientState := (selectEffect "userA" emptyState).1

/-- State after then selecting peer `userB`, while the fetch for `userA`
is still in flight. -/
def c2afterSelectB : ClientState := (selectEffect "userB" c2afterSelectA).1

/-- State after the delayed fetch response for `userA` finally arrives:
the response handler runs with the closure-captured selected peer
`some "userA"`. -/
def c2afterStaleResponse : ClientState :=
  (getMessagesSuccess (some "userA") "userA" [fetchedFromA] c2afterSelectB).1

/-- An unrelated optimistic placeholder already in flight, used by the
C9 witness. -/
def tempOther : Message :=
  { mid := "temp-other", senderId := "me", receiverId := "p1", text := "x",
    image := none, seen := false, isTemp := true, createdAt := 2 }

/-- A state holding the in-flight placeholder `tempOther` with peer `p1`
selected, used by the C9 witness. -/
def c9state : ClientState :=
  { messages := [tempOther], userMessagesMap := [("p1", [tempOther])],
    unseenMessages := [], selectedUser := some "p1" }

/-- A fresh state with peer `p1` selected, used in concrete scenarios. -/
def selP1State : ClientState :=
  { messages := [], userMessagesMap := [], unseenMessages := [],
    selectedUser := some "p1" }

/-- The state right after the optimistic append of a send of "hi" to
`p1`: the placeholder `temp-1` sits in the cache, and the save effect
(which runs on every cache mutation) persists this very map. -/
def c4afterOptimistic : ClientState :=
  (sendMessageStart "me" (some "hi") none "temp-1" 7 selP1State).1

/-- A state with five unseen messages counted for `p1`, no cache entry
for `p1` and nothing selected, used in the C6 scenario. -/
def c6state : ClientState :=
  { messages := [], userMessagesMap := [], unseenMessages := [("p1", 5)],
    selectedUser := none }

/-- A first unseen inbound message from `p1`, in the C8 scenario. -/
def unseenA : Message :=
  { mid := "u1", senderId := "p1", receiverId := "me", text := "a",
    image := none, seen := false, isTemp := false, createdAt := 1 }

/-- A second unseen inbound message from `p1`, in the C8 scenario. -/
def unseenB : Message :=
  { mid := "u2", senderId := "p1", receiverId := "me", text := "b",
    image := none, seen := false, isTemp := false, createdAt := 2 }

/-! ### Helper lemmas about the association-map operations -/

theorem mGet?_mSet {α : Type} (m : List (String × α)) (k p : String) (v : α) :
    mGet? (mSet m k v) p = if k = p then some v else mGet? m p := by
  induction m with
  | nil => by_cases h : k = p <;> simp [mSet, mGet?, h]
  | cons kv rest ih =>
      obtain ⟨k2, w⟩ := kv
      by_cases h2 : k2 = k
      · subst h2
        by_cases hp : k2 = p <;> simp [mSet, mGet?, hp]
      · by_cases hp : k2 = p
        · subst hp
          have : ¬ k = k2 := fun h => h2 h.symm
          simp [mSet, mGet?, h2, this]
        · simp [mSet, mGet?, h2, hp, ih]

theorem mGetD_mSet {α : Type} (m : List (String × α)) (k p : String) (v dflt : α) :
    mGetD (mSet m k v) p dflt = if k = p then v else mGetD m p dflt := by
  by_cases h : k = p <;> simp [mGetD, mGet?_mSet, h]

theorem mGetD_mSet_self {α : Type} (m : List (String × α)) (k : String) (v dflt : α) :
    mGetD (mSet m k v) k dflt = v := by
  simp [mGetD_mSet]

theorem mGet?_map_snd {α β : Type} (l : List (String × α)) (f : α → β) (k : String) :
    mGet? (l.map (fun kv => (kv.1, f kv.2))) k = (mGet? l k).map f := by
  induction l with
  | nil => simp [mGet?]
  | cons kv rest ih =>
      by_cases h : kv.1 = k <;> simp [mGet?, h, ih]

/-! ### Helper lemmas about identifier counts -/

theorem countById_append (l1 l2 : List Message) (i : String) :
    countById (l1 ++ l2) i = countById l1 i + countById l2 i := by
  simp [countById, List.countP_append]

theorem countById_map_replace (l : List Message) (i : String) (u : Message)
    (hu : u.mid = i) :
    countById (l.map (fun msg => if msg.mid = i then u else msg)) i
      = countById l i := by
  induction l with
  | nil => rfl
  | cons m rest ih =>
      by_cases hm : m.mid = i <;>
        simp [countById, List.countP_cons, hm, hu, ih, countById] at ih ⊢ <;>
        omega

theorem countById_singleton (m : Message) : countById [m] m.mid = 1 := by
  simp [countById, List.countP_cons]

/-! ### C1: delivery of a `newMessage` event and identifier duplication -/

/-- C1 (amended): `handleNewMessage` performs no deduplication: every
delivery of a valid `new-message` event appends one more entry with the
event's canonical identifier to the affected peer's Conversation Cache
entry, so delivering the same event twice yields two entries with that
identifier rather than one. -/
theorem handleNewMessage_appends_id (authUser : String) (nm : Message) (s : ClientState)
    (h : validMsg nm = true) :
    countById (mGetD (handleNewMessage authUser nm s).1.userMessagesMap
        (otherParty authUser nm) []) nm.mid
      = countById (mGetD s.userMessagesMap (otherParty authUser nm) []) nm.mid + 1 := by
  by_cases hsender : nm.senderId = authUser
  · by_cases hsel : s.selectedUser = some (otherParty authUser nm)
    · simp [handleNewMessage, otherParty, h, hsender, hsel, mGetD_mSet_self,
        countById_append, countById_singleton]
    · simp only [otherParty, hsender, if_true] at hsel
      simp [handleNewMessage, otherParty, h, hsender, hsel, mGetD_mSet_self,
        countById_append, countById_singleton]
  · by_cases hsel : s.selectedUser = some (otherParty authUser nm)
    · have hu : ({ nm with seen := true } : Message).mid = nm.mid := rfl
      simp [handleNewMessage, otherParty, h, hsender, hsel, mGetD_mSet_self,
        countById_map_replace _ _ _ hu, countById_append, countById_singleton]
    · simp only [otherParty, hsender, if_false, ite_false] at hsel
      simp [handleNewMessage, otherParty, h, hsender, hsel, mGetD_mSet_self,
        countById_append, countById_singleton]

/-- C1 counterexample: delivering the same `new-message` event twice
leaves two entries with identifier `m1` in peer `p1`'s cache entry, not
one — the second delivery of an already-present canonical identifier is
not discarded. -/
theorem handleNewMessage_not_idempotent :
    countById (mGetD (handleNewMessage "me" inboundHey
        (handleNewMessage "me" inboundHey emptyState).1).1.userMessagesMap "p1" [])
      "m1" = 2 := by decide

/-- Witness for `handleNewMessage_appends_id` at a concrete input. -/
theorem handleNewMessage_appends_id_witness :
    countById (mGetD (handleNewMessage "me" inboundHey emptyState).1.userMessagesMap
        (otherParty "me" inboundHey) []) inboundHey.mid
      = countById (mGetD emptyState.userMessagesMap (otherParty "me" inboundHey) [])
          inboundHey.mid + 1 :=
  handleNewMessage_appends_id "me" inboundHey emptyState (by decide)

/-! ### C2: stale history-fetch responses after re-selection -/

/-- C2: the code does not discard the stale fetch result.  The guard
`selectedUser._id === userId` evaluates over the `selectedUser` captured
by the issuing closure — which is the fetched peer itself — so after
selecting `userA`, issuing its fetch, selecting `userB`, and then
receiving the delayed response for `userA`, the active visible sequence
is `userA`'s fetched history while `userB` is the Selected Peer,
contradicting the claim that such a result is discarded. -/
theorem staleFetch_overwrites_newer_selection :
    (selectEffect "userA" emptyState).2 = some (some "userA", "userA") ∧
    c2afterStaleResponse.selectedUser = some "userB" ∧
    c2afterStaleResponse.messages = [fetchedFromA] := by decide

/-! ### C3: failed sends leave no placeholder from that call -/

/-- C3: for every `sendMessage` call whose request fails — a non-success
response (`failureResp`, the `else` branch) or a thrown error
(`exception`, the `catch` branch) — the placeholder created by that call
(the entry with `isTemp = true` and the call's placeholder identifier) is
absent from both the active visible sequence and the selected peer's
Conversation Cache entry afterwards. -/
theorem sendMessage_failure_no_placeholder (authUser : String)
    (text image : Option String) (tempId : String) (now : Nat)
    (o : SendOutcome) (s : ClientState) (peer : String)
    (hsel : s.selectedUser = some peer)
    (ho : o = SendOutcome.failureResp ∨ o = SendOutcome.exception) :
    (∀ m ∈ (sendMessage authUser text image tempId now o s).messages,
        ¬ (m.isTemp = true ∧ m.mid = tempId)) ∧
    (∀ m ∈ mGetD (sendMessage authUser text image tempId now o s).userMessagesMap peer [],
        ¬ (m.isTemp = true ∧ m.mid = tempId)) := by
  have key : ∀ l : List Message, ∀ m ∈ l.filter (fun msg => msg.mid ≠ tempId),
      ¬ (m.isTemp = true ∧ m.mid = tempId) := by
    intro l m hm
    rw [List.mem_filter] at hm
    rintro ⟨-, h2⟩
    have hmid := hm.2
    simp [h2] at hmid
  have key2 : ∀ l : List Message, ∀ m ∈ l.filter (fun msg => !msg.isTemp),
      ¬ (m.isTemp = true ∧ m.mid = tempId) := by
    intro l m hm
    rw [List.mem_filter] at hm
    rintro ⟨h1, -⟩
    simp [h1] at hm
  rcases ho with ho | ho <;> subst ho <;>
    refine ⟨?_, ?_⟩ <;>
    simp only [sendMessage, sendMessageStart, sendMessageFinish, mkTempMessage, hsel,
      mGetD_mSet_self] <;>
    first
      | exact key _
      | exact key2 _

/-- Witness for `sendMessage_failure_no_placeholder`: a concrete failed
send into an empty conversation with peer `p1` selected. -/
theorem sendMessage_failure_no_placeholder_witness :
    (∀ m ∈ (sendMessage "me" (some "hi") none "temp-1" 3
        SendOutcome.failureResp
        { messages := [], userMessagesMap := [], unseenMessages := [],
          selectedUser := some "p1" }).messages,
        ¬ (m.isTemp = true ∧ m.mid = "temp-1")) ∧
    (∀ m ∈ mGetD (sendMessage "me" (some "hi") none "temp-1" 3
        SendOutcome.failureResp
        { messages := [], userMessagesMap := [], unseenMessages := [],
          selectedUser := some "p1" }).userMessagesMap "p1" [],
        ¬ (m.isTemp = true ∧ m.mid = "temp-1")) :=
  sendMessage_failure_no_placeholder "me" (some "hi") none "temp-1" 3
    SendOutcome.failureResp _ "p1" rfl (Or.inl rfl)

/-! ### C9: the exception path strips every pending entry -/

/-- C9: when the request throws (the `catch` branch), the rollback
filters on `!msg.isTemp`, so every pending entry — not only the
placeholder of the failed call — is removed from both the active visible
sequence and the selected peer's cache entry. -/
theorem sendMessage_exception_strips_all_pending (authUser : String)
    (text image : Option String) (tempId : String) (now : Nat)
    (s : ClientState) (peer : String) (hsel : s.selectedUser = some peer) :
    ((sendMessage authUser text image tempId now SendOutcome.exception s).messages.all
        (fun m => !m.isTemp)) = true ∧
    ((mGetD (sendMessage authUser text image tempId now SendOutcome.exception s).userMessagesMap
        peer []).all (fun m => !m.isTemp)) = true := by
  simp [sendMessage, sendMessageStart, sendMessageFinish, hsel, mGetD_mSet_self,
    List.all_eq_true, List.mem_filter]

/-- Witness for `sendMessage_exception_strips_all_pending`: the selected
conversation already holds an unrelated in-flight placeholder
`temp-other`, and the exception path removes it too. -/
theorem sendMessage_exception_strips_all_pending_witness :
    ((sendMessage "me" (some "hi") none "temp-1" 9 SendOutcome.exception
        c9state).messages.all (fun m => !m.isTemp)) = true ∧
    ((mGetD (sendMessage "me" (some "hi") none "temp-1" 9 SendOutcome.exception
        c9state).userMessagesMap "p1" []).all (fun m => !m.isTemp)) = true :=
  sendMessage_exception_strips_all_pending "me" (some "hi") none "temp-1" 9 c9state "p1" rfl

/-! ### C10: the `markAsReadResult` handler -/

/-- C10: on a `markAsReadResult` event carrying `userId` and an optional
`count`, the handler sets the unseen counter of `userId` to `count || 0`
unconditionally — no component of the state other than the counter table
changes, the check does not consult the selected peer, and every other
counter is untouched. -/
theorem handleMarkAsRead_sets_count (userId : String) (count : Option Nat)
    (s : ClientState) :
    (∀ p, mGetD (handleMarkAsRead userId count s).unseenMessages p 0
        = if userId = p then count.getD 0 else mGetD s.unseenMessages p 0) ∧
    (handleMarkAsRead userId count s).selectedUser = s.selectedUser ∧
    (handleMarkAsRead userId count s).messages = s.messages ∧
    (handleMarkAsRead userId count s).userMessagesMap = s.userMessagesMap := by
  refine ⟨fun p => ?_, rfl, rfl, rfl⟩
  simp [handleMarkAsRead, mGetD_mSet]

/-! ### C4: cross-session persistence of pending placeholders -/

/-- C4 (amended): the save effect persists the whole conversation cache —
pending placeholders included — and hydration keeps every stored entry
whose sender and receiver identifiers are truthy, so any message in the
cache with both identifiers set, pending or confirmed, survives a reload
into the hydrated cache. -/
theorem hydrate_keeps_valid_entries (s : ClientState) (u : String) (m : Message)
    (hm : m ∈ mGetD s.userMessagesMap u []) (hv : validMsg m = true) :
    m ∈ mGetD (hydrateUserMessagesMap (savedUserMessagesMap s)) u [] := by
  unfold hydrateUserMessagesMap savedUserMessagesMap mGetD
  rw [mGet?_map_snd]
  cases hq : mGet? s.userMessagesMap u with
  | none =>
      unfold mGetD at hm
      rw [hq] at hm
      simp at hm
  | some l =>
      unfold mGetD at hm
      rw [hq] at hm
      simp only [Option.map_some, Option.getD_some] at hm ⊢
      simp [List.mem_filter, hm, hv]

/-- C4 counterexample: after an optimistic append, the durable record
(the serialized cache) contains a pending placeholder, and hydrating it
brings the placeholder back — the stored cache does not contain only
Confirmed messages. -/
theorem pending_persisted_crossSession :
    ((mGetD (hydrateUserMessagesMap (savedUserMessagesMap c4afterOptimistic)) "p1" []).any
        (fun m => m.isTemp)) = true := by decide

/-- Witness for `hydrate_keeps_valid_entries`: the concrete pending
placeholder of `c4afterOptimistic` survives the save/hydrate round
trip. -/
theorem hydrate_keeps_valid_entries_witness :
    mkTempMessage "me" "p1" (some "hi") none "temp-1" 7
      ∈ mGetD (hydrateUserMessagesMap (savedUserMessagesMap c4afterOptimistic)) "p1" [] :=
  hydrate_keeps_valid_entries c4afterOptimistic "p1" _ (by decide) (by decide)

/-! ### C5: empty-content validation at the sendMessage boundary -/

/-- C5 counterexample: a `sendMessage` call with neither text nor image
is not rejected: the request towards the Persistence Boundary is issued
(second component is `some`), and a pending placeholder is appended to
the active sequence — there is no `EmptyContentError` path in the
code. -/
theorem emptyContent_not_rejected :
    (sendMessageStart "me" none none "temp-2" 3 selP1State).2
      = some ("p1", mkTempMessage "me" "p1" none none "temp-2" 3) ∧
    ((sendMessageStart "me" none none "temp-2" 3 selP1State).1.messages.any
        (fun m => m.isTemp)) = true := by decide

/-- C5 (amended): neither the client nor the store validates empty
content: with a peer selected, a `sendMessage` call carrying neither
text nor image creates the pending placeholder in both the active
sequence and the cache entry and issues the request, and the server
accepts it, storing a message with empty text and no image. -/
theorem sendMessage_no_empty_content_validation (authUser : String)
    (tempId : String) (now : Nat) (s : ClientState) (peer : String)
    (hsel : s.selectedUser = some peer) (nid : String) (snow : Nat) :
    (sendMessageStart authUser none none tempId now s).2
      = some (peer, mkTempMessage authUser peer none none tempId now) ∧
    mkTempMessage authUser peer none none tempId now
      ∈ (sendMessageStart authUser none none tempId now s).1.messages ∧
    mkTempMessage authUser peer none none tempId now
      ∈ mGetD (sendMessageStart authUser none none tempId now s).1.userMessagesMap peer [] ∧
    serverSendMessage true authUser peer none none nid snow
      = some { mid := nid, senderId := authUser, receiverId := peer, text := "",
               image := none, seen := false, isTemp := false, createdAt := snow } := by
  refine ⟨?_, ?_, ?_, ?_⟩ <;>
    simp [sendMessageStart, serverSendMessage, hsel, mGetD_mSet_self]

/-- Witness for `sendMessage_no_empty_content_validation` at a concrete
input. -/
theorem sendMessage_no_empty_content_validation_witness :
    (sendMessageStart "me" none none "temp-2" 3 selP1State).2
      = some ("p1", mkTempMessage "me" "p1" none none "temp-2" 3) ∧
    mkTempMessage "me" "p1" none none "temp-2" 3
      ∈ (sendMessageStart "me" none none "temp-2" 3 selP1State).1.messages ∧
    mkTempMessage "me" "p1" none none "temp-2" 3
      ∈ mGetD (sendMessageStart "me" none none "temp-2" 3 selP1State).1.userMessagesMap "p1" [] ∧
    serverSendMessage true "me" "p1" none none "m9" 11
      = some { mid := "m9", senderId := "me", receiverId := "p1", text := "",
               image := none, seen := false, isTemp := false, createdAt := 11 } :=
  sendMessage_no_empty_content_validation "me" "temp-2" 3 selP1State "p1" rfl "m9" 11

/-! ### C6: the unseen counter around selectPeer and inbound messages -/

/-- C6 counterexample: when `selectPeer(P)` has no cache entry it issues
a history fetch, and when that fetch fails the unseen counter of `P` is
left untouched — here it is still `5` after `selectPeer` completes, not
`0` as the claim requires. -/
theorem selectPeer_failure_keeps_counter :
    mGetD (selectPeer "p1" FetchOutcome.failure c6state).1.unseenMessages "p1" 0 = 5 := by
  decide

/-- C6 (amended): after `selectPeer(P)` the counter of `P` is `0`
whenever the history fetch succeeds or a cache entry already exists
(in the latter case the counter table is `mSet`-reset even on a failed
fetch), but a failed fetch with no cache entry leaves the counter table
unchanged; and while `P` is not the Selected Peer, each qualifying
inbound message (valid, sender = `P`, not a self-echo) increments `P`'s
counter by exactly one. -/
theorem selectPeer_counter_and_increment (u : String) (msgs : List Message)
    (s : ClientState) (authUser : String) (nm : Message)
    (hv : validMsg nm = true) (hecho : nm.senderId ≠ authUser)
    (hnotsel : s.selectedUser ≠ some (otherParty authUser nm)) :
    mGetD (selectPeer u (FetchOutcome.success msgs) s).1.unseenMessages u 0 = 0 ∧
    (selectPeer u FetchOutcome.failure s).1.unseenMessages
      = (if (mGet? s.userMessagesMap u).isSome = true
         then mSet s.unseenMessages u 0 else s.unseenMessages) ∧
    mGetD (handleNewMessage authUser nm s).1.unseenMessages nm.senderId 0
      = mGetD s.unseenMessages nm.senderId 0 + 1 := by
  refine ⟨?_, ?_, ?_⟩
  · cases hq : mGet? s.userMessagesMap u with
    | none => simp [selectPeer, selectEffect, getMessagesSuccess, hq, mGetD_mSet_self]
    | some cached => simp [selectPeer, selectEffect, hq, mGetD_mSet_self]
  · cases hq : mGet? s.userMessagesMap u with
    | none => simp [selectPeer, selectEffect, hq]
    | some cached => simp [selectPeer, selectEffect, hq]
  · simp only [otherParty, hecho, ite_false] at hnotsel
    simp [handleNewMessage, otherParty, hv, hecho, hnotsel, mGetD_mSet_self]

/-- Witness for `selectPeer_counter_and_increment`: selecting `p2` with a
successful empty fetch, a failing fetch, and the inbound message
`inboundHey` from the unselected peer `p1`. -/
theorem selectPeer_counter_and_increment_witness :
    mGetD (selectPeer "p2" (FetchOutcome.success []) c6state).1.unseenMessages "p2" 0 = 0 ∧
    (selectPeer "p2" FetchOutcome.failure c6state).1.unseenMessages
      = (if (mGet? c6state.userMessagesMap "p2").isSome = true
         then mSet c6state.unseenMessages "p2" 0 else c6state.unseenMessages) ∧
    mGetD (handleNewMessage "me" inboundHey c6state).1.unseenMessages inboundHey.senderId 0
      = mGetD c6state.unseenMessages inboundHey.senderId 0 + 1 :=
  selectPeer_counter_and_increment "p2" [] c6state "me" inboundHey (by decide)
    (by decide) (by decide)

/-! ### C7: the presence-driven unseen-count merge -/

theorem serverUnseenSnapshot_pos (peers : List String) (count : String → Nat) :
    ∀ kv ∈ serverUnseenSnapshot peers count, kv.2 ≠ 0 := by
  intro kv hkv
  unfold serverUnseenSnapshot at hkv
  rw [List.mem_filterMap] at hkv
  obtain ⟨u, _, hf⟩ := hkv
  by_cases h : count u > 0
  · rw [if_pos h] at hf
    cases hf
    omega
  · rw [if_neg h] at hf
    cases hf

theorem mGetD_spreadMerge_nonzero (server localCounts : List (String × Nat))
    (P : String) (hserver : ∀ kv ∈ server, kv.2 ≠ 0)
    (hlocal : mGetD localCounts P 0 ≠ 0) :
    mGetD (spreadMerge localCounts server) P 0 ≠ 0 := by
  induction server generalizing localCounts with
  | nil => simpa [spreadMerge] using hlocal
  | cons kv rest ih =>
      have h1 : mGetD (mSet localCounts kv.1 kv.2) P 0 ≠ 0 := by
        rw [mGetD_mSet]
        by_cases h : kv.1 = P
        · simpa [h] using hserver kv (by simp)
        · simpa [h] using hlocal
      have hstep : spreadMerge localCounts (kv :: rest)
          = spreadMerge (mSet localCounts kv.1 kv.2) rest := rfl
      rw [hstep]
      exact ih (mSet localCounts kv.1 kv.2)
        (fun x hx => hserver x (List.mem_cons_of_mem kv hx)) h1

/-- C7: the presence-driven refresh cannot clobber a locally non-zero
unseen counter with a server zero: the server snapshot only ever lists
peers with a positive count, and the spread merge keeps the local value
for every peer absent from the snapshot, so a peer whose local counter
is non-zero still has a non-zero counter after `getUsers` completes. -/
theorem getUsers_no_zero_clobber (localCounts : List (String × Nat))
    (peers : List String) (count : String → Nat) (P : String)
    (hlocal : mGetD localCounts P 0 ≠ 0) :
    mGetD (getUsersMerge localCounts (serverUnseenSnapshot peers count)) P 0 ≠ 0 :=
  mGetD_spreadMerge_nonzero _ _ _ (serverUnseenSnapshot_pos peers count) hlocal

/-- Witness for `getUsers_no_zero_clobber`: a local count of two for
`p1` survives a refresh in which the server counts zero unseen messages
for every peer. -/
theorem getUsers_no_zero_clobber_witness :
    mGetD (getUsersMerge [("p1", 2)]
        (serverUnseenSnapshot ["p1"] (fun _ => 0))) "p1" 0 ≠ 0 :=
  getUsers_no_zero_clobber [("p1", 2)] ["p1"] (fun _ => 0) "p1" (by decide)

/-! ### C8: bulk versus per-message mark-seen requests -/

/-- C8 counterexample: selecting `p1` with no cache entry fetches a
history containing two unseen messages, and the client emits two
`markAsRead` requests — one per message, not a single bulk request. -/
theorem markAsRead_one_request_per_message :
    ((selectPeer "p1" (FetchOutcome.success [unseenA, unseenB]) emptyState).2).length
      = 2 := by decide

/-- C8 (amended): the store-side marking is a single bulk pass — the
server's `updateMany` marks every message from the peer to the local
user as seen in one traversal that preserves the store — while the
client additionally emits exactly one `markAsRead` event per unseen
fetched message. -/
theorem markSeen_bulk_on_server_per_message_on_client (captured : Option String)
    (userId : String) (fetched : List Message) (s : ClientState)
    (db : List Message) (myId peerId : String) :
    ((getMessagesSuccess captured userId fetched s).2).length
      = ((fetched.filter validMsg).filter
          (fun m => m.senderId = userId && !m.seen)).length ∧
    ((serverMarkSeenBulk db myId peerId).filter
        (fun m => m.senderId = peerId && m.receiverId = myId)).all
      (fun m => m.seen) = true ∧
    (serverMarkSeenBulk db myId peerId).length = db.length := by
  refine ⟨by simp [getMessagesSuccess], ?_, by simp [serverMarkSeenBulk]⟩
  rw [List.all_eq_true]
  intro m hm
  rw [List.mem_filter] at hm
  obtain ⟨hmem, hcond⟩ := hm
  unfold serverMarkSeenBulk at hmem
  rw [List.mem_map] at hmem
  obtain ⟨m0, -, rfl⟩ := hmem
  by_cases hq : (m0.senderId = peerId && m0.receiverId = myId && !m0.seen) = true
  · rw [if_pos hq] at hcond ⊢
  · rw [if_neg hq] at hcond ⊢
    simp only [Bool.and_eq_true, decide_eq_true_eq, Bool.not_eq_true'] at hcond hq
    cases hb : m0.seen with
    | true => rfl
    | false => exact absurd ⟨hcond, hb⟩ hq

end Chattrix
